import Mathlib

/-!
Test-Sync-Pro — verification of the delta/dedup decision pipeline.

A shallow embedding, in Lean 4, of the core of the Test-Sync-Pro
repository (`dedup_engine.py`, `delta_analyzer.py`, `folder_manager.py`,
`run.py`, together with the data classes of `models.py` and the
`DEDUP_THRESHOLD` default of `config.py`).

Modelling conventions:
* Python `str` values become `List Char` (`Str` below); `str.lower()` is
  modelled character-wise over ASCII (`Char.toLower`), which is exact for
  every string the analysed code compares.
* Python `float` scores become exact rationals `ℚ`.  Every score the code
  computes is of the form `2*M/T` with `M T : ℕ`, so the rational model is
  the exact-arithmetic reading of the float code; rational constants are
  written with `mkRat` so that they reduce inside the kernel.
* `difflib.SequenceMatcher(None, a, b)` is embedded at two levels.
  `findLongestMatch` is the junk-free `find_longest_match` over the whole
  ranges (maximal common contiguous block, earliest in `a` then earliest
  in `b` on ties — exactly the winner of difflib's strictly-improving
  scan), and `matchTotal`/`similarity` build `ratio()` on top of it (the
  recursive Ratcliff/Obershelp decomposition of `get_matching_blocks`);
  the similarity claims proved below are parametric in, or unaffected by,
  difflib's `autojunk` heuristic, which this junk-free level omits.
  `findLongestMatchJ` additionally models autojunk in full (junk-pruned
  dynamic programme plus the four extension loops) and is what the
  coverage check `_line_is_covered` uses, because its corpus — every
  existing title and step concatenated — can exceed the 200-character
  autojunk activation length.
* Stateful collaborator calls of `run.py` (Azure DevOps client, LLM
  generator) are oracle records, and the pipeline returns the list of
  collaborator events it emits next to its `SyncResult`.
-/

/-- Python strings, as lists of characters. -/
abbrev Str : Type := List Char

/-! ## Generic fold lemmas used throughout -/

/-- A fold keeps any invariant preserved by its step function
(for elements of the folded list). -/
theorem foldl_preserve_mem {α β : Type} (P : β → Prop) (f : β → α → β) :
    ∀ (l : List α) (acc : β), (∀ acc x, x ∈ l → P acc → P (f acc x)) →
      P acc → P (l.foldl f acc)
  | [], _, _, hacc => hacc
  | x :: xs, acc, h, hacc =>
    foldl_preserve_mem P f xs (f acc x)
      (fun a y hy ha => h a y (List.mem_cons_of_mem _ hy) ha)
      (h acc x (List.mem_cons_self _ _) hacc)

/-- A fold whose step fixes the accumulator on every listed element
returns the accumulator unchanged. -/
theorem foldl_stationary {α β : Type} (f : β → α → β) :
    ∀ (l : List α) (acc : β), (∀ x ∈ l, f acc x = acc) → l.foldl f acc = acc
  | [], _, _ => rfl
  | x :: xs, acc, h => by
    have hx : f acc x = acc := h x (List.mem_cons_self _ _)
    simp only [List.foldl_cons, hx]
    exact foldl_stationary f xs acc (fun y hy => h y (List.mem_cons_of_mem _ hy))

/-- The initial value is below a `max`-fold. -/
theorem init_le_foldl_max {α : Type} [LinearOrder α] :
    ∀ (l : List α) (i : α), i ≤ l.foldl max i
  | [], _ => le_refl _
  | x :: xs, i => le_trans (le_max_left i x) (init_le_foldl_max xs (max i x))

/-- Every listed element is below a `max`-fold. -/
theorem mem_le_foldl_max {α : Type} [LinearOrder α] :
    ∀ (l : List α) (i : α) (x : α), x ∈ l → x ≤ l.foldl max i
  | y :: ys, i, x, hx => by
    rcases List.mem_cons.mp hx with h | h
    · exact h ▸ le_trans (le_max_right i x) (init_le_foldl_max ys (max i x))
    · exact mem_le_foldl_max ys (max i y) x h

/-- A `max`-fold of values all below a bound stays below the bound. -/
theorem foldl_max_lt {α : Type} [LinearOrder α] :
    ∀ (l : List α) (i c : α), i < c → (∀ x ∈ l, x < c) → l.foldl max i < c
  | [], _, _, hi, _ => hi
  | x :: xs, i, c, hi, hl => by
    refine foldl_max_lt xs (max i x) c ?_ (fun y hy => hl y (List.mem_cons_of_mem _ hy))
    exact max_lt hi (hl x (List.mem_cons_self _ _))

/-! ## Python string primitives -/

/-- The characters Python's `str.strip()` removes (ASCII whitespace). -/
def pyIsSpace (c : Char) : Bool :=
  c = ' ' || c = '\t' || c = '\n' || c = '\r' || c = '\x0b' || c = '\x0c'

/-- Python `s.strip()`. -/
def pyStrip (s : Str) : Str :=
  ((s.dropWhile pyIsSpace).reverse.dropWhile pyIsSpace).reverse

/-- Python `s.lower()` (character-wise, ASCII). -/
def pyLower (s : Str) : Str := s.map Char.toLower

/-- Python `s.replace("\r\n", "\n")` (left-to-right, non-overlapping). -/
def replaceCRLF : Str → Str
  | '\r' :: '\n' :: rest => '\n' :: replaceCRLF rest
  | c :: rest => c :: replaceCRLF rest
  | [] => []

/-- Python `s.split("\n")`; the empty string splits into `[""]`. -/
def splitNL : Str → List Str
  | [] => [[]]
  | '\n' :: rest => [] :: splitNL rest
  | c :: rest =>
    match splitNL rest with
    | g :: gs => (c :: g) :: gs
    | [] => [[c]]

/-- Python `"\n".join(parts)`. -/
def joinNL : List Str → Str
  | [] => []
  | [x] => x
  | x :: xs => x ++ '\n' :: joinNL xs

/-- Python `needle in hay` on strings (contiguous substring test;
the empty needle is contained in everything). -/
def isSub (needle : Str) : Str → Bool
  | [] => needle.isPrefixOf []
  | c :: rest => needle.isPrefixOf (c :: rest) || isSub needle rest

/-! ## difflib.SequenceMatcher (no junk) -/

/-- Length of the longest common prefix of two strings. -/
def commonPrefixLen : Str → Str → Nat
  | a :: as, b :: bs => if a = b then commonPrefixLen as bs + 1 else 0
  | _, _ => 0

/-- One candidate inspection of `find_longest_match`: the block starting at
`(i, j)` replaces the best block only on a strict size improvement, which
is exactly difflib's update rule (first seen wins ties). -/
def flmStep (a b : Str) (i : Nat) (best : Nat × Nat × Nat) (j : Nat) :
    Nat × Nat × Nat :=
  if best.2.2 < commonPrefixLen (a.drop i) (b.drop j) then
    (i, j, commonPrefixLen (a.drop i) (b.drop j))
  else best

/-- Model of `SequenceMatcher(None, a, b).find_longest_match(0, len(a), 0, len(b))`:
the `(i, j, size)` of the longest common contiguous block, ties resolved
towards the smallest start in `a`, then the smallest start in `b`. -/
def findLongestMatch (a b : Str) : Nat × Nat × Nat :=
  (List.range a.length).foldl
    (fun best i => (List.range b.length).foldl (flmStep a b i) best) (0, 0, 0)

/-- Fuel-indexed total size of the Ratcliff/Obershelp matching blocks:
the longest common block plus, recursively, the blocks of the material on
each side of it (what `get_matching_blocks` accumulates).  Each recursive
step strictly shrinks `a.length + b.length`, so fuel `a.length + b.length`
is always sufficient (`matchTotalF_stable` below). -/
def matchTotalF : Nat → Str → Str → Nat
  | 0, _, _ => 0
  | fuel + 1, a, b =>
    let m := findLongestMatch a b
    if m.2.2 = 0 then 0
    else
      m.2.2 + matchTotalF fuel (a.take m.1) (b.take m.2.1) +
        matchTotalF fuel (a.drop (m.1 + m.2.2)) (b.drop (m.2.1 + m.2.2))

/-- Total size of the matching blocks of `a` and `b`. -/
def matchTotal (a b : Str) : Nat := matchTotalF (a.length + b.length) a b

/-- Model of `dedup_engine._similarity`, i.e. `SequenceMatcher(None, a, b).ratio()`:
`2*M/T` where `M` is the total matched size and `T` the combined length;
difflib's `_calculate_ratio` returns `1.0` when `T = 0`. -/
def similarity (a b : Str) : ℚ :=
  if a.length + b.length = 0 then 1
  else mkRat (2 * matchTotal a b) (a.length + b.length)

/-! ### Basic facts about the matcher -/

theorem commonPrefixLen_le_left : ∀ a b : Str, commonPrefixLen a b ≤ a.length
  | [], _ => Nat.le_refl 0
  | _ :: _, [] => Nat.zero_le _
  | a :: as, b :: bs => by
    simp only [commonPrefixLen]
    split
    · exact Nat.succ_le_succ (commonPrefixLen_le_left as bs)
    · exact Nat.zero_le _

theorem commonPrefixLen_le_right : ∀ a b : Str, commonPrefixLen a b ≤ b.length
  | [], _ => Nat.zero_le _
  | _ :: _, [] => Nat.le_refl 0
  | a :: as, b :: bs => by
    simp only [commonPrefixLen]
    split
    · exact Nat.succ_le_succ (commonPrefixLen_le_right as bs)
    · exact Nat.zero_le _

theorem commonPrefixLen_self : ∀ a : Str, commonPrefixLen a a = a.length
  | [] => rfl
  | a :: as => by simp [commonPrefixLen, commonPrefixLen_self as]

theorem commonPrefixLen_nil_left (b : Str) : commonPrefixLen [] b = 0 := by
  cases b <;> rfl

theorem commonPrefixLen_nil_right (a : Str) : commonPrefixLen a [] = 0 := by
  cases a <;> rfl

theorem findLongestMatch_nil_left (b : Str) : findLongestMatch [] b = (0, 0, 0) := rfl

theorem findLongestMatch_nil_right (a : Str) : findLongestMatch a [] = (0, 0, 0) := by
  unfold findLongestMatch
  exact foldl_stationary _ _ _ (fun x _ => rfl)

theorem matchTotalF_nil_left : ∀ (f : Nat) (b : Str), matchTotalF f [] b = 0
  | 0, _ => rfl
  | _ + 1, b => by simp [matchTotalF, findLongestMatch_nil_left]

/-- The step of `find_longest_match` never shrinks the recorded size. -/
theorem flmStep_size_mono (a b : Str) (i : Nat) (best : Nat × Nat × Nat) (j : Nat) :
    best.2.2 ≤ (flmStep a b i best j).2.2 := by
  unfold flmStep
  split
  · exact Nat.le_of_lt (by assumption)
  · exact Nat.le_refl _

theorem foldl_flmStep_size_mono (a b : Str) (i : Nat) :
    ∀ (l : List Nat) (acc : Nat × Nat × Nat),
      acc.2.2 ≤ (l.foldl (flmStep a b i) acc).2.2
  | [], _ => Nat.le_refl _
  | j :: js, acc =>
    Nat.le_trans (flmStep_size_mono a b i acc j)
      (foldl_flmStep_size_mono a b i js (flmStep a b i acc j))

/-- The recorded size after the inner fold dominates the candidate at any
inspected start `j`. -/
theorem foldl_flmStep_size_ge (a b : Str) (i : Nat) :
    ∀ (l : List Nat) (acc : Nat × Nat × Nat) (j : Nat), j ∈ l →
      commonPrefixLen (a.drop i) (b.drop j) ≤ (l.foldl (flmStep a b i) acc).2.2
  | j' :: js, acc, j, hj => by
    rcases List.mem_cons.mp hj with h | h
    · subst h
      refine Nat.le_trans ?_ (foldl_flmStep_size_mono a b i js (flmStep a b i acc j))
      unfold flmStep
      split
      · exact Nat.le_refl _
      · exact Nat.le_of_not_lt (by assumption)
    · exact foldl_flmStep_size_ge a b i js (flmStep a b i acc j') j h

/-- Generic monotonicity of the recorded size through a fold. -/
theorem foldl_size_mono {α : Type} (f : Nat × Nat × Nat → α → Nat × Nat × Nat)
    (hmono : ∀ acc x, acc.2.2 ≤ (f acc x).2.2) :
    ∀ (l : List α) (acc : Nat × Nat × Nat), acc.2.2 ≤ (l.foldl f acc).2.2
  | [], _ => Nat.le_refl _
  | x :: xs, acc =>
    Nat.le_trans (hmono acc x) (foldl_size_mono f hmono xs (f acc x))

/-- If some listed element forces the recorded size above `v`, the whole
fold records at least `v`. -/
theorem foldl_size_capture {α : Type} (f : Nat × Nat × Nat → α → Nat × Nat × Nat)
    (hmono : ∀ acc x, acc.2.2 ≤ (f acc x).2.2) (v : Nat) (x : α)
    (hx : ∀ acc, v ≤ (f acc x).2.2) :
    ∀ (l : List α) (acc : Nat × Nat × Nat), x ∈ l → v ≤ (l.foldl f acc).2.2
  | y :: ys, acc, hmem => by
    rcases List.mem_cons.mp hmem with h | h
    · subst h
      exact Nat.le_trans (hx acc) (foldl_size_mono f hmono ys (f acc x))
    · exact foldl_size_capture f hmono v x hx ys (f acc y) h

/-- The reported block size dominates every common contiguous block:
no pair of start offsets yields a longer common prefix. -/
theorem findLongestMatch_size_ge (a b : Str) (i j : Nat) :
    commonPrefixLen (a.drop i) (b.drop j) ≤ (findLongestMatch a b).2.2 := by
  by_cases hi : i < a.length
  · by_cases hj : j < b.length
    · unfold findLongestMatch
      refine foldl_size_capture _ ?_ _ i ?_ _ _ (List.mem_range.mpr hi)
      · intro acc x
        exact foldl_size_mono _ (flmStep_size_mono a b x) _ acc
      · intro acc
        exact foldl_flmStep_size_ge a b i _ acc j (List.mem_range.mpr hj)
    · rw [List.drop_eq_nil_of_le (Nat.le_of_not_lt hj), commonPrefixLen_nil_right]
      exact Nat.zero_le _
  · rw [List.drop_eq_nil_of_le (Nat.le_of_not_lt hi), commonPrefixLen_nil_left]
    exact Nat.zero_le _

/-- The reported block size is attained by some pair of start offsets. -/
theorem findLongestMatch_size_attained (a b : Str) :
    ∃ i j, (findLongestMatch a b).2.2 = commonPrefixLen (a.drop i) (b.drop j) := by
  unfold findLongestMatch
  refine foldl_preserve_mem
    (fun acc : Nat × Nat × Nat => ∃ i j, acc.2.2 = commonPrefixLen (a.drop i) (b.drop j)) _ _ _
    ?_ ⟨a.length, 0, by rw [List.drop_length, commonPrefixLen_nil_left]⟩
  intro acc i _ hacc
  refine foldl_preserve_mem
    (fun acc : Nat × Nat × Nat => ∃ i j, acc.2.2 = commonPrefixLen (a.drop i) (b.drop j))
    _ _ _ ?_ hacc
  intro acc2 j _ hacc2
  unfold flmStep
  split
  · exact ⟨i, j, rfl⟩
  · exact hacc2

/-- The reported block lies inside both strings. -/
theorem findLongestMatch_bounds (a b : Str) :
    (findLongestMatch a b).1 + (findLongestMatch a b).2.2 ≤ a.length ∧
      (findLongestMatch a b).2.1 + (findLongestMatch a b).2.2 ≤ b.length := by
  unfold findLongestMatch
  refine foldl_preserve_mem
    (fun acc : Nat × Nat × Nat => acc.1 + acc.2.2 ≤ a.length ∧ acc.2.1 + acc.2.2 ≤ b.length) _ _ _
    ?_ ⟨Nat.zero_le _, Nat.zero_le _⟩
  intro acc i hi hacc
  refine foldl_preserve_mem
    (fun acc : Nat × Nat × Nat => acc.1 + acc.2.2 ≤ a.length ∧ acc.2.1 + acc.2.2 ≤ b.length)
    _ _ _ ?_ hacc
  intro acc2 j hj hacc2
  unfold flmStep
  split
  · have h1 := commonPrefixLen_le_left (a.drop i) (b.drop j)
    have h2 := commonPrefixLen_le_right (a.drop i) (b.drop j)
    rw [List.length_drop] at h1
    rw [List.length_drop] at h2
    have hi' := List.mem_range.mp hi
    have hj' := List.mem_range.mp hj
    dsimp only
    exact ⟨by omega, by omega⟩
  · exact hacc2

/-- A candidate block no longer than the recorded one never updates it. -/
theorem flmStep_noupdate (a b : Str) (i j : Nat) (best : Nat × Nat × Nat)
    (h : commonPrefixLen (a.drop i) (b.drop j) ≤ best.2.2) :
    flmStep a b i best j = best := by
  unfold flmStep
  exact if_neg (Nat.not_lt.mpr h)

/-- Once the recorded size has reached `a.length`, a whole inner scan is a
no-op. -/
theorem foldl_flmStep_fixed (a b : Str) (i : Nat) (best : Nat × Nat × Nat)
    (h : a.length ≤ best.2.2) (l : List Nat) :
    l.foldl (flmStep a b i) best = best := by
  refine foldl_stationary _ _ _ (fun j _ => flmStep_noupdate a b i j best ?_)
  refine Nat.le_trans (Nat.le_trans (commonPrefixLen_le_left _ _) ?_) h
  rw [List.length_drop]
  exact Nat.sub_le _ _

/-- On identical non-empty inputs the longest match is the whole string,
found at the very first inspected offsets. -/
theorem findLongestMatch_self (a : Str) (h : a ≠ []) :
    findLongestMatch a a = (0, 0, a.length) := by
  obtain ⟨n, hn⟩ : ∃ n, a.length = n + 1 := by
    cases a with
    | nil => exact absurd rfl h
    | cons c as => exact ⟨as.length, rfl⟩
  have hstep : flmStep a a 0 (0, 0, 0) 0 = (0, 0, a.length) := by
    unfold flmStep
    simp only [List.drop_zero, commonPrefixLen_self]
    rw [if_pos (by omega)]
  have hrange : List.range a.length = 0 :: (List.range n).map Nat.succ := by
    rw [hn, List.range_succ_eq_map]
  unfold findLongestMatch
  rw [hrange, List.foldl_cons, List.foldl_cons, hstep,
    foldl_flmStep_fixed a a 0 (0, 0, a.length) (Nat.le_refl _) _]
  exact foldl_stationary _ _ _
    (fun i _ => foldl_flmStep_fixed a a i (0, 0, a.length) (Nat.le_refl _) _)

/-- The matched total of identical non-empty strings is the whole length. -/
theorem matchTotal_self (a : Str) (h : a ≠ []) : matchTotal a a = a.length := by
  obtain ⟨n, hn⟩ : ∃ n, a.length + a.length = n + 1 := by
    cases a with
    | nil => exact absurd rfl h
    | cons c as => exact ⟨as.length + (as.length + 1), by simp [List.length_cons]; ring⟩
  unfold matchTotal
  rw [hn]
  simp only [matchTotalF, findLongestMatch_self a h]
  have hlen : a.length ≠ 0 := by
    cases a with
    | nil => exact absurd rfl h
    | cons c as => simp
  rw [if_neg hlen]
  simp [List.drop_length, matchTotalF_nil_left]

/-- Self-similarity: `similarity a a = 1` for non-empty `a` (both claims of §8 depend on it). -/
theorem similarity_self (a : Str) (h : a ≠ []) : similarity a a = 1 := by
  have hlen : a.length ≠ 0 := by simpa [List.length_eq_zero] using h
  unfold similarity
  rw [if_neg (by omega), matchTotal_self a h, Rat.mkRat_eq_div]
  have hq : ((a.length : ℚ)) ≠ 0 := by exact_mod_cast hlen
  push_cast
  field_simp
  ring

theorem similarity_nil_left (b : Str) (h : b ≠ []) : similarity [] b = 0 := by
  have hlen : b.length ≠ 0 := by simpa [List.length_eq_zero] using h
  unfold similarity matchTotal
  rw [if_neg (by simpa using hlen)]
  simp [matchTotalF_nil_left, Rat.mkRat_eq_div]

theorem similarity_nil_nil : similarity [] [] = 1 := rfl

/-- Fuel irrelevance: any fuel at least `a.length + b.length` computes the
same total, so `matchTotal` is the genuine (terminating) block recursion. -/
theorem matchTotalF_stable :
    ∀ (N f g : Nat) (a b : Str), a.length + b.length ≤ N →
      a.length + b.length ≤ f → a.length + b.length ≤ g →
      matchTotalF f a b = matchTotalF g a b := by
  intro N
  induction N with
  | zero =>
    intro f g a b hN _ _
    have ha : a = [] := by
      cases a with
      | nil => rfl
      | cons c as => simp at hN
    subst ha
    rw [matchTotalF_nil_left, matchTotalF_nil_left]
  | succ N ih =>
    intro f g a b hN hf hg
    cases f with
    | zero =>
      have ha : a = [] := by
        cases a with
        | nil => rfl
        | cons c as => simp at hf
      subst ha
      rw [matchTotalF_nil_left, matchTotalF_nil_left]
    | succ f' =>
      cases g with
      | zero =>
        have ha : a = [] := by
          cases a with
          | nil => rfl
          | cons c as => simp at hg
        subst ha
        rw [matchTotalF_nil_left, matchTotalF_nil_left]
      | succ g' =>
        simp only [matchTotalF]
        by_cases hk : (findLongestMatch a b).2.2 = 0
        · rw [if_pos hk, if_pos hk]
        · rw [if_neg hk, if_neg hk]
          obtain ⟨h1, h2⟩ := findLongestMatch_bounds a b
          have htake : (a.take (findLongestMatch a b).1).length +
              (b.take (findLongestMatch a b).2.1).length ≤ N ∧
              (a.take (findLongestMatch a b).1).length +
              (b.take (findLongestMatch a b).2.1).length ≤ f' ∧
              (a.take (findLongestMatch a b).1).length +
              (b.take (findLongestMatch a b).2.1).length ≤ g' := by
            rw [List.length_take, List.length_take]
            omega
          have hdrop : (a.drop ((findLongestMatch a b).1 + (findLongestMatch a b).2.2)).length +
              (b.drop ((findLongestMatch a b).2.1 + (findLongestMatch a b).2.2)).length ≤ N ∧
              (a.drop ((findLongestMatch a b).1 + (findLongestMatch a b).2.2)).length +
              (b.drop ((findLongestMatch a b).2.1 + (findLongestMatch a b).2.2)).length ≤ f' ∧
              (a.drop ((findLongestMatch a b).1 + (findLongestMatch a b).2.2)).length +
              (b.drop ((findLongestMatch a b).2.1 + (findLongestMatch a b).2.2)).length ≤ g' := by
            rw [List.length_drop, List.length_drop]
            omega
          rw [ih f' g' _ _ htake.1 htake.2.1 htake.2.2,
            ih f' g' _ _ hdrop.1 hdrop.2.1 hdrop.2.2]

/-- Any sufficient fuel computes `matchTotal`. -/
theorem matchTotalF_eq_matchTotal (f : Nat) (a b : Str)
    (h : a.length + b.length ≤ f) : matchTotalF f a b = matchTotal a b :=
  matchTotalF_stable (a.length + b.length) f (a.length + b.length) a b
    (Nat.le_refl _) h (Nat.le_refl _)

/-! ### difflib autojunk and the junk-aware longest match

`SequenceMatcher` prunes "popular" characters of `b` from its match index
when `len(b) >= 200` (the autojunk heuristic), so `find_longest_match` can
report a block smaller than the longest shared substring.  The coverage
corpus of `delta_analyzer._line_is_covered` routinely exceeds 200
characters, so the coverage path is embedded with the junk handling in
full: the junk-pruned `j2len` dynamic programme followed by difflib's four
extension loops.  This embedding was cross-validated against CPython's
difflib on randomized inputs spanning the autojunk regime. -/

/-- Model of difflib's autojunk: when `len(b) >= 200`, characters occurring
more than `len(b) // 100 + 1` times in `b` are popular and treated as
junk. -/
def bjunk (b : Str) (c : Char) : Bool :=
  decide (200 ≤ b.length) && decide (b.length / 100 + 1 < List.count c b)

/-- Longest common prefix running only through non-junk characters of the
second string: the diagonal run length of the junk-pruned `j2len` dynamic
programme (a junk character of `b` never appears in `b2j`, so no run
crosses it). -/
def commonPrefixLenJ (junk : Char → Bool) : Str → Str → Nat
  | a :: as, b :: bs =>
    if a = b ∧ junk b = false then commonPrefixLenJ junk as bs + 1 else 0
  | _, _ => 0

/-- One candidate inspection of the junk-aware scan (strict improvement,
first seen wins ties, exactly as `flmStep`). -/
def flmStepJ (junk : Char → Bool) (a b : Str) (i : Nat)
    (best : Nat × Nat × Nat) (j : Nat) : Nat × Nat × Nat :=
  if best.2.2 < commonPrefixLenJ junk (a.drop i) (b.drop j) then
    (i, j, commonPrefixLenJ junk (a.drop i) (b.drop j))
  else best

/-- The winner of the junk-pruned dynamic programme: the largest junk-free
common contiguous block, ties resolved towards the smallest start in `a`,
then the smallest start in `b`. -/
def dpLongestMatch (junk : Char → Bool) (a b : Str) : Nat × Nat × Nat :=
  (List.range a.length).foldl
    (fun best i => (List.range b.length).foldl (flmStepJ junk a b i) best) (0, 0, 0)

/-- Guard of one extension step of `find_longest_match`: both positions
exist, the `b` character passes the junk test `ok`, and the characters
match. -/
def extStepOK (ok : Char → Bool) (a b : Str) (ia ib : Nat) : Bool :=
  match a[ia]?, b[ib]? with
  | some ca, some cb => ok cb && decide (ca = cb)
  | _, _ => false

/-- Backward extension loop of `find_longest_match`
(`while besti > alo and bestj > blo and ... : besti, bestj, bestsize -= ...`);
fuel `i` suffices because every step decrements `besti`. -/
def extendBackJ (ok : Char → Bool) (a b : Str) :
    Nat → Nat → Nat → Nat → Nat × Nat × Nat
  | 0, i, j, k => (i, j, k)
  | fuel + 1, i, j, k =>
    if 0 < i ∧ 0 < j ∧ extStepOK ok a b (i - 1) (j - 1) = true then
      extendBackJ ok a b fuel (i - 1) (j - 1) (k + 1)
    else (i, j, k)

/-- Forward extension loop of `find_longest_match`
(`while besti+bestsize < ahi and ... : bestsize += 1`); fuel `a.length`
suffices because every step needs `besti + bestsize < a.length`. -/
def extendFwdJ (ok : Char → Bool) (a b : Str) :
    Nat → Nat → Nat → Nat → Nat × Nat × Nat
  | 0, i, j, k => (i, j, k)
  | fuel + 1, i, j, k =>
    if extStepOK ok a b (i + k) (j + k) = true then
      extendFwdJ ok a b fuel i j (k + 1)
    else (i, j, k)

/-- Backward extension phase applied to a best triple. -/
def phaseBack (ok : Char → Bool) (a b : Str) (m : Nat × Nat × Nat) :
    Nat × Nat × Nat :=
  extendBackJ ok a b m.1 m.1 m.2.1 m.2.2

/-- Forward extension phase applied to a best triple. -/
def phaseFwd (ok : Char → Bool) (a b : Str) (m : Nat × Nat × Nat) :
    Nat × Nat × Nat :=
  extendFwdJ ok a b a.length m.1 m.2.1 m.2.2

/-- `SequenceMatcher(None, a, b).find_longest_match(0, len(a), 0, len(b))`
with difflib's junk handling: the junk-pruned dynamic programme, then the
four extension loops in source order — backward and forward by non-junk
characters, then backward and forward by junk characters. -/
def findLongestMatchJ (junk : Char → Bool) (a b : Str) : Nat × Nat × Nat :=
  phaseFwd (fun c => junk c) a b
    (phaseBack (fun c => junk c) a b
      (phaseFwd (fun c => !junk c) a b
        (phaseBack (fun c => !junk c) a b (dpLongestMatch junk a b))))

/-! ## Data model (`models.py`) -/

/-- Model of `models.TestStep`: a single action + expected-result pair. -/
structure TestStep where
  action : Str
  expected_result : Str
deriving DecidableEq

/-- Model of `models.UserStory` (the spec's RequirementRecord). -/
structure UserStory where
  id : Nat
  title : Str
  description : Str
  acceptance_criteria : Str
  priority : Nat := 2
  tags : List Str := []
  state : Str := []
deriving DecidableEq

/-- Model of `models.GeneratedTestCase` (the spec's GeneratedCase); `then` is a Lean
keyword, so that field is `then_`. -/
structure GeneratedTestCase where
  title : Str
  given : Str
  when : Str
  then_ : Str
  steps : List TestStep := []
  priority : Nat := 2
  tags : List Str := []
  category : Str := "Regression".data
  test_type : Str := "Positive".data
deriving DecidableEq

/-- Model of `models.ExistingTestCase` (the spec's ExistingArtifact). -/
structure ExistingTestCase where
  id : Nat
  title : Str
  steps : List TestStep := []
  priority : Nat := 2
  tags : List Str := []
  revision : Nat := 1
deriving DecidableEq

/-- Model of `models.SyncResult` (the spec's SyncOutcome). -/
structure SyncResult where
  story_id : Nat
  created_ids : List Nat := []
  updated_ids : List Nat := []
  skipped_count : Nat := 0
  folder_map : List (Str × Nat) := []
deriving DecidableEq

/-! ## `config.py` -/

namespace Settings

/-- Model of `Settings.DEDUP_THRESHOLD`: `float(os.getenv("DEDUP_THRESHOLD", "0.90"))`
with the environment left at its default, i.e. the rational 9/10. -/
def DEDUP_THRESHOLD : ℚ := mkRat 9 10

end Settings

/-! ## `dedup_engine.py` -/

/-- Model of `dedup_engine._tc_signature`: `f"{title}\n{given}\n{when}\n{then}"`,
stripped then lowercased. -/
def tc_signature (title given when then_ : Str) : Str :=
  pyLower (pyStrip (title ++ '\n' :: given ++ '\n' :: when ++ '\n' :: then_))

/-- Model of `dedup_engine._existing_signature`: title plus newline-joined
`f"{action} {expected_result}"` step lines, stripped then lowercased. -/
def existing_signature (tc : ExistingTestCase) : Str :=
  pyLower (pyStrip (tc.title ++ '\n' ::
    joinNL (tc.steps.map (fun s => s.action ++ ' ' :: s.expected_result))))

/-- Model of `dedup_engine.DedupResult`. -/
structure DedupResult where
  is_duplicate : Bool := false
  matched_id : Nat := 0
  score : ℚ := 0
deriving DecidableEq

/-- Model of `dedup_engine.DedupEngine` state after `__init__`. -/
structure DedupEngine where
  threshold : ℚ
  existing_sigs : List (Nat × Str)

/-- Model of `DedupEngine.__init__`: `self._threshold = threshold or
Settings.DEDUP_THRESHOLD` (a `None` or `0.0` argument — Python falsiness —
falls back to the settings default) and the cached `(id, signature)`
snapshot of the existing test cases. -/
def DedupEngine.init (existing : List ExistingTestCase) (threshold : Option ℚ) :
    DedupEngine where
  threshold :=
    match threshold with
    | none => Settings.DEDUP_THRESHOLD
    | some t => if t = 0 then Settings.DEDUP_THRESHOLD else t
  existing_sigs := existing.map (fun tc => (tc.id, existing_signature tc))

/-- The running-maximum loop of `DedupEngine.check`: start from
`best_score = 0.0, best_id = 0` and update only on a strict `>`. -/
def DedupEngine.bestOf (e : DedupEngine) (new_sig : Str) : ℚ × Nat :=
  e.existing_sigs.foldl
    (fun best p => if best.1 < similarity new_sig p.2 then (similarity new_sig p.2, p.1) else best)
    (0, 0)

/-- Model of `DedupEngine.check`. -/
def DedupEngine.check (e : DedupEngine) (tc : GeneratedTestCase) : DedupResult :=
  if e.threshold ≤ (e.bestOf (tc_signature tc.title tc.given tc.when tc.then_)).1 then
    { is_duplicate := true
      matched_id := (e.bestOf (tc_signature tc.title tc.given tc.when tc.then_)).2
      score := (e.bestOf (tc_signature tc.title tc.given tc.when tc.then_)).1 }
  else
    { is_duplicate := false
      matched_id := 0
      score := (e.bestOf (tc_signature tc.title tc.given tc.when tc.then_)).1 }

/-- Model of `DedupEngine.check_batch`: independent checks, paired, input order kept. -/
def DedupEngine.check_batch (e : DedupEngine) (cases : List GeneratedTestCase) :
    List (GeneratedTestCase × DedupResult) :=
  cases.map (fun tc => (tc, e.check tc))

/-! ## `delta_analyzer.py` -/

/-- The characters `lstrip("-•*0123456789.) ")` removes. -/
def bullet_chars : List Char :=
  ['-', '•', '*', '0', '1', '2', '3', '4', '5', '6', '7', '8', '9', '.', ')', ' ']

/-- One line of `_extract_criteria_lines`:
`raw.strip().lstrip("-•*0123456789.) ")`. -/
def clean_line (raw : Str) : Str :=
  (pyStrip raw).dropWhile (fun c => bullet_chars.contains c)

/-- Model of `delta_analyzer._extract_criteria_lines`. -/
def extract_criteria_lines (ac_text : Str) : List Str :=
  (((splitNL (replaceCRLF ac_text)).map clean_line).filter (fun l => !l.isEmpty))

/-- Model of `delta_analyzer._existing_coverage_text`: every title, then every step's
action and expected result, newline-joined, lowercased. -/
def existing_coverage_text (existing : List ExistingTestCase) : Str :=
  pyLower (joinNL
    ((existing.map (fun tc =>
      tc.title :: (tc.steps.map (fun s => [s.action, s.expected_result])).flatten)).flatten))

/-- Model of `delta_analyzer._line_is_covered` (the default `threshold` is 0.70 and
`compute_delta` always uses it): literal lowercase substring, or the
`2*L/(len(line)+len(corpus))` block ratio reaching the threshold, where the
block is the one the junk-aware `find_longest_match` reports (the coverage
corpus can exceed 200 characters, so autojunk is in effect); the ratio is
forced to 0 on an empty corpus. -/
def line_is_covered (line coverage_text : Str) (threshold : ℚ) : Bool :=
  if isSub (pyLower line) coverage_text then true
  else
    decide (threshold ≤
      (if coverage_text.isEmpty then 0
       else mkRat
         ((findLongestMatchJ (bjunk coverage_text) (pyLower line) coverage_text).2.2 * 2)
         (line.length + coverage_text.length)))

/-- Model of `DeltaAnalyzer.compute_delta`. -/
def compute_delta (story : UserStory) (existing : List ExistingTestCase) : Str :=
  if extract_criteria_lines story.acceptance_criteria = [] then []
  else if existing = [] then []
  else
    if (extract_criteria_lines story.acceptance_criteria).filter
        (fun l => !line_is_covered l (existing_coverage_text existing) (mkRat 7 10)) = [] then
      []
    else
      joinNL (((extract_criteria_lines story.acceptance_criteria).filter
        (fun l => !line_is_covered l (existing_coverage_text existing) (mkRat 7 10))).map
          (fun l => '-' :: ' ' :: l))

/-- Model of `DeltaAnalyzer.has_existing_tests`. -/
def has_existing_tests (existing : List ExistingTestCase) : Bool := !existing.isEmpty

/-! ## `folder_manager.py` -/

/-- Python `dict.get` over the folder-name → suite-id map. -/
def lookupName : List (Str × Nat) → Str → Option Nat
  | [], _ => none
  | (k, v) :: rest, n => if k = n then some v else lookupName rest n

/-- The three recognised category folder names, in the order the source
tests them. -/
def recognized_categories : List Str :=
  ["Smoke".data, "Sanity".data, "Regression".data]

/-- Model of `FolderManager.assign_test`, with the already-set-up folder map passed
in (the pipeline calls `setup_folders` before any assignment).  The result
is the list of `add_test_to_suite(suite_id, test_case_id)` calls issued;
a folder name absent from the map (or a falsy suite id, `if complete_id:`)
issues no call. -/
def assign_test (folder_map : List (Str × Nat)) (test_case_id : Nat)
    (tc : GeneratedTestCase) : List (Nat × Nat) :=
  (match lookupName folder_map ("Complete Test Cases".data) with
   | some cid => if cid = 0 then [] else [(cid, test_case_id)]
   | none => []) ++
  (match lookupName folder_map
      (if tc.category ∈ recognized_categories then tc.category else "Regression".data) with
   | some sid => if sid = 0 then [] else [(sid, test_case_id)]
   | none => [])

/-- Restatement of §4.4's routing rule, for comparison with `assign_test`:
the normalised category label. -/
def normalize_category (c : Str) : Str :=
  if c ∈ recognized_categories then c else "Regression".data

/-- Restatement of §4.4's filing rule, for comparison with `assign_test`:
file into a named folder when the map knows it, else silently skip. -/
def file_into (folder_map : List (Str × Nat)) (name : Str) (tid : Nat) :
    List (Nat × Nat) :=
  match lookupName folder_map name with
  | some fid => if fid = 0 then [] else [(fid, tid)]
  | none => []

/-! ## `run.py` — the sync pipeline -/

/-- Collaborator calls the pipeline can issue, in emission order. -/
inductive Event where
  | fetch_story (story_id : Nat)
  | fetch_linked (story_id : Nat)
  | generate
  | ensure_folders
  | create_tc (new_id : Nat)
  | update_tc (tc_id : Nat)
  | add_to_suite (suite_id : Nat) (tc_id : Nat)
deriving DecidableEq

/-- The write collaborators (`ArtifactWriter.create/update`,
`FolderStore.assign`, i.e. `ado.create_test_case`, `ado.update_test_case`
and `ado.add_test_to_suite`). -/
def is_write_event : Event → Bool
  | .create_tc _ => true
  | .update_tc _ => true
  | .add_to_suite _ _ => true
  | _ => false

/-- Oracle for `ado_client.ADOClient`: what each collaborator call would
return during the run.  `create_test_case` is keyed by the creation index
because Azure DevOps mints the identifier. -/
structure ADOClient where
  get_user_story : Nat → UserStory
  get_linked_test_cases : Nat → List ExistingTestCase
  ensure_folders : List (Str × Nat)
  create_test_case : Nat → GeneratedTestCase → Nat

/-- Model of `run.run(story_id, dry_run)`: the full pipeline of `run.py`
(fetch → delta → early exit | generate → dry-run stop | dedup → push),
returning the `SyncResult` and the ordered list of collaborator events.
`gen` is the `TestGenerator.generate(story, delta_hint)` collaborator. -/
def run (ado : ADOClient) (gen : UserStory → Str → List GeneratedTestCase)
    (story_id : Nat) (dry_run : Bool) : SyncResult × List Event :=
  if ado.get_linked_test_cases story_id ≠ [] ∧
      compute_delta (ado.get_user_story story_id) (ado.get_linked_test_cases story_id) = [] then
    ({ story_id := story_id,
       skipped_count := (ado.get_linked_test_cases story_id).length },
     [Event.fetch_story story_id, Event.fetch_linked story_id])
  else if dry_run then
    ({ story_id := story_id },
     [Event.fetch_story story_id, Event.fetch_linked story_id, Event.generate])
  else
    let existing := ado.get_linked_test_cases story_id
    let cases := gen (ado.get_user_story story_id)
      (compute_delta (ado.get_user_story story_id) existing)
    let paired := (DedupEngine.init existing none).check_batch cases
    let to_create := (paired.filter (fun p => !p.2.is_duplicate)).map (fun p => p.1)
    let to_update := (paired.filter (fun p => p.2.is_duplicate)).map
      (fun p => (p.2.matched_id, p.1))
    let folder_map := ado.ensure_folders
    let created_pairs := to_create.enum.map
      (fun p => (ado.create_test_case p.1 p.2, p.2))
    let id_tc_pairs := created_pairs ++ to_update
    ({ story_id := story_id
       created_ids := created_pairs.map (fun p => p.1)
       updated_ids := to_update.map (fun p => p.1)
       skipped_count := 0
       folder_map := folder_map },
     [Event.fetch_story story_id, Event.fetch_linked story_id, Event.generate,
      Event.ensure_folders]
       ++ created_pairs.map (fun p => Event.create_tc p.1)
       ++ to_update.map (fun p => Event.update_tc p.1)
       ++ (id_tc_pairs.map (fun p =>
            (assign_test folder_map p.1 p.2).map
              (fun c => Event.add_to_suite c.1 c.2))).flatten)

/-! ## Derived helper lemmas -/

/-- The longest-block size never exceeds the first string's length. -/
theorem findLongestMatch_size_le_left (a b : Str) :
    (findLongestMatch a b).2.2 ≤ a.length := by
  obtain ⟨i, j, hij⟩ := findLongestMatch_size_attained a b
  rw [hij]
  refine Nat.le_trans (commonPrefixLen_le_left _ _) ?_
  rw [List.length_drop]
  exact Nat.sub_le _ _

/-- Fold congruence: pointwise-equal step functions fold equally. -/
theorem foldl_congr_fun {α β : Type} (f g : β → α → β) :
    ∀ (l : List α) (acc : β), (∀ acc x, x ∈ l → f acc x = g acc x) →
      l.foldl f acc = l.foldl g acc
  | [], _, _ => rfl
  | x :: xs, acc, h => by
    rw [List.foldl_cons, List.foldl_cons, h acc x (List.mem_cons_self _ _)]
    exact foldl_congr_fun f g xs _ (fun a y hy => h a y (List.mem_cons_of_mem _ hy))

theorem commonPrefixLenJ_le_left (junk : Char → Bool) :
    ∀ a b : Str, commonPrefixLenJ junk a b ≤ a.length
  | [], _ => Nat.le_refl 0
  | _ :: _, [] => Nat.zero_le _
  | a :: as, b :: bs => by
    simp only [commonPrefixLenJ]
    split
    · exact Nat.succ_le_succ (commonPrefixLenJ_le_left junk as bs)
    · exact Nat.zero_le _

theorem commonPrefixLenJ_le_right (junk : Char → Bool) :
    ∀ a b : Str, commonPrefixLenJ junk a b ≤ b.length
  | [], _ => Nat.zero_le _
  | _ :: _, [] => Nat.le_refl 0
  | a :: as, b :: bs => by
    simp only [commonPrefixLenJ]
    split
    · exact Nat.succ_le_succ (commonPrefixLenJ_le_right junk as bs)
    · exact Nat.zero_le _

/-- Without junk the junk-aware run length is the plain one. -/
theorem commonPrefixLenJ_no_junk (junk : Char → Bool) (h : ∀ c, junk c = false) :
    ∀ a b : Str, commonPrefixLenJ junk a b = commonPrefixLen a b
  | [], b => by cases b <;> rfl
  | _ :: _, [] => rfl
  | a :: as, b :: bs => by
    simp only [commonPrefixLenJ, commonPrefixLen, h b, and_true,
      commonPrefixLenJ_no_junk junk h as bs]

/-- A junk-only suffix of `b` supports no junk-free run at all. -/
theorem commonPrefixLenJ_all_junk (junk : Char → Bool) (a bs : Str)
    (h : ∀ c ∈ bs, junk c = true) : commonPrefixLenJ junk a bs = 0 := by
  cases a with
  | nil => cases bs <;> rfl
  | cons x xt =>
    cases bs with
    | nil => rfl
    | cons y yt =>
      simp only [commonPrefixLenJ]
      rw [if_neg (fun hcond => by
        have h2 := hcond.2
        rw [h y (List.mem_cons_self _ _)] at h2
        exact Bool.noConfusion h2)]

/-- The junk-pruned dynamic programme's reported block lies inside both
strings. -/
theorem dpLongestMatch_bounds (junk : Char → Bool) (a b : Str) :
    (dpLongestMatch junk a b).1 + (dpLongestMatch junk a b).2.2 ≤ a.length ∧
      (dpLongestMatch junk a b).2.1 + (dpLongestMatch junk a b).2.2 ≤ b.length := by
  unfold dpLongestMatch
  refine foldl_preserve_mem
    (fun acc : Nat × Nat × Nat => acc.1 + acc.2.2 ≤ a.length ∧ acc.2.1 + acc.2.2 ≤ b.length)
    _ _ _ ?_ ⟨Nat.zero_le _, Nat.zero_le _⟩
  intro acc i hi hacc
  refine foldl_preserve_mem
    (fun acc : Nat × Nat × Nat => acc.1 + acc.2.2 ≤ a.length ∧ acc.2.1 + acc.2.2 ≤ b.length)
    _ _ _ ?_ hacc
  intro acc2 j hj hacc2
  unfold flmStepJ
  split
  · have h1 := commonPrefixLenJ_le_left junk (a.drop i) (b.drop j)
    have h2 := commonPrefixLenJ_le_right junk (a.drop i) (b.drop j)
    rw [List.length_drop] at h1
    rw [List.length_drop] at h2
    have hi' := List.mem_range.mp hi
    have hj' := List.mem_range.mp hj
    dsimp only
    exact ⟨by omega, by omega⟩
  · exact hacc2

/-- Without junk the junk-pruned dynamic programme is the plain scan. -/
theorem dpLongestMatch_no_junk (junk : Char → Bool) (a b : Str)
    (h : ∀ c, junk c = false) : dpLongestMatch junk a b = findLongestMatch a b := by
  unfold dpLongestMatch findLongestMatch
  refine foldl_congr_fun _ _ _ _ (fun acc i _ => ?_)
  refine foldl_congr_fun _ _ _ _ (fun acc2 j _ => ?_)
  unfold flmStepJ flmStep
  rw [commonPrefixLenJ_no_junk junk h]

/-- A junk-only corpus supports no dynamic-programme match at all. -/
theorem dpLongestMatch_all_junk (junk : Char → Bool) (a b : Str)
    (h : ∀ c ∈ b, junk c = true) : dpLongestMatch junk a b = (0, 0, 0) := by
  unfold dpLongestMatch
  refine foldl_stationary _ _ _ (fun i _ => ?_)
  refine foldl_stationary _ _ _ (fun j _ => ?_)
  unfold flmStepJ
  rw [commonPrefixLenJ_all_junk junk _ _
    (fun c hc => h c (List.drop_subset _ _ hc))]
  rfl

/-- Decomposition of a successful extension-step guard. -/
theorem extStepOK_true_iff (ok : Char → Bool) (a b : Str) (ia ib : Nat) :
    extStepOK ok a b ia ib = true ↔
      ∃ ca cb, a[ia]? = some ca ∧ b[ib]? = some cb ∧ ok cb = true ∧ ca = cb := by
  unfold extStepOK
  cases ha : a[ia]? with
  | none => simp [ha]
  | some ca =>
    cases hb : b[ib]? with
    | none => simp [ha, hb]
    | some cb =>
      have hred : (match some ca, some cb with
          | some ca, some cb => ok cb && decide (ca = cb)
          | _, _ => false) = (ok cb && decide (ca = cb)) := rfl
      rw [hred, Bool.and_eq_true, decide_eq_true_eq]
      constructor
      · rintro ⟨hok, rfl⟩
        exact ⟨ca, ca, rfl, rfl, hok, rfl⟩
      · rintro ⟨ca', cb', hca', hcb', hok, heq⟩
        have h1 : ca = ca' := by injection hca'
        have h2 : cb = cb' := by injection hcb'
        subst h1
        subst h2
        exact ⟨hok, heq⟩

/-- Rewriting form of the guard given both characters. -/
theorem extStepOK_eq (ok : Char → Bool) (a b : Str) (ia ib : Nat) (ca cb : Char)
    (h1 : a[ia]? = some ca) (h2 : b[ib]? = some cb) :
    extStepOK ok a b ia ib = (ok cb && decide (ca = cb)) := by
  unfold extStepOK
  rw [h1, h2]

/-- A successful guard means both positions are in range. -/
theorem extStepOK_lt (ok : Char → Bool) (a b : Str) (ia ib : Nat)
    (h : extStepOK ok a b ia ib = true) : ia < a.length ∧ ib < b.length := by
  obtain ⟨ca, cb, hca, hcb, _, _⟩ := (extStepOK_true_iff ok a b ia ib).mp h
  exact ⟨(List.getElem?_eq_some.mp hca).1, (List.getElem?_eq_some.mp hcb).1⟩

/-- The backward extension keeps the block inside both strings (each step
moves the start back exactly as much as it grows the size). -/
theorem extendBackJ_bounds (ok : Char → Bool) (a b : Str) :
    ∀ (fuel i j k : Nat), i + k ≤ a.length → j + k ≤ b.length →
      (extendBackJ ok a b fuel i j k).1 + (extendBackJ ok a b fuel i j k).2.2 ≤ a.length ∧
        (extendBackJ ok a b fuel i j k).2.1 + (extendBackJ ok a b fuel i j k).2.2 ≤ b.length
  | 0, _, _, _, ha, hb => ⟨ha, hb⟩
  | fuel + 1, i, j, k, ha, hb => by
    unfold extendBackJ
    split
    · next h =>
      exact extendBackJ_bounds ok a b fuel (i - 1) (j - 1) (k + 1)
        (by omega) (by omega)
    · exact ⟨ha, hb⟩

/-- The forward extension keeps the block inside both strings (each step
requires the next positions to exist). -/
theorem extendFwdJ_bounds (ok : Char → Bool) (a b : Str) :
    ∀ (fuel i j k : Nat), i + k ≤ a.length → j + k ≤ b.length →
      (extendFwdJ ok a b fuel i j k).1 + (extendFwdJ ok a b fuel i j k).2.2 ≤ a.length ∧
        (extendFwdJ ok a b fuel i j k).2.1 + (extendFwdJ ok a b fuel i j k).2.2 ≤ b.length
  | 0, _, _, _, ha, hb => ⟨ha, hb⟩
  | fuel + 1, i, j, k, ha, hb => by
    unfold extendFwdJ
    split
    · next h =>
      obtain ⟨hia, hib⟩ := extStepOK_lt ok a b _ _ h
      exact extendFwdJ_bounds ok a b fuel i j (k + 1) (by omega) (by omega)
    · exact ⟨ha, hb⟩

theorem phaseBack_bounds (ok : Char → Bool) (a b : Str) (m : Nat × Nat × Nat)
    (ha : m.1 + m.2.2 ≤ a.length) (hb : m.2.1 + m.2.2 ≤ b.length) :
    (phaseBack ok a b m).1 + (phaseBack ok a b m).2.2 ≤ a.length ∧
      (phaseBack ok a b m).2.1 + (phaseBack ok a b m).2.2 ≤ b.length :=
  extendBackJ_bounds ok a b m.1 m.1 m.2.1 m.2.2 ha hb

theorem phaseFwd_bounds (ok : Char → Bool) (a b : Str) (m : Nat × Nat × Nat)
    (ha : m.1 + m.2.2 ≤ a.length) (hb : m.2.1 + m.2.2 ≤ b.length) :
    (phaseFwd ok a b m).1 + (phaseFwd ok a b m).2.2 ≤ a.length ∧
      (phaseFwd ok a b m).2.1 + (phaseFwd ok a b m).2.2 ≤ b.length :=
  extendFwdJ_bounds ok a b a.length m.1 m.2.1 m.2.2 ha hb

/-- The junk-aware reported block lies inside both strings. -/
theorem findLongestMatchJ_bounds (junk : Char → Bool) (a b : Str) :
    (findLongestMatchJ junk a b).1 + (findLongestMatchJ junk a b).2.2 ≤ a.length ∧
      (findLongestMatchJ junk a b).2.1 + (findLongestMatchJ junk a b).2.2 ≤ b.length := by
  have h0 := dpLongestMatch_bounds junk a b
  have h1 := phaseBack_bounds (fun c => !junk c) a b _ h0.1 h0.2
  have h2 := phaseFwd_bounds (fun c => !junk c) a b _ h1.1 h1.2
  have h3 := phaseBack_bounds (fun c => junk c) a b _ h2.1 h2.2
  exact phaseFwd_bounds (fun c => junk c) a b _ h3.1 h3.2

/-- The junk-aware block size never exceeds the first string's length. -/
theorem findLongestMatchJ_size_le_left (junk : Char → Bool) (a b : Str) :
    (findLongestMatchJ junk a b).2.2 ≤ a.length := by
  have h := (findLongestMatchJ_bounds junk a b).1
  omega

/-- A backward extension whose guard fails is the identity. -/
theorem extendBackJ_noop (ok : Char → Bool) (a b : Str) (i j k : Nat)
    (h : ¬ (0 < i ∧ 0 < j ∧ extStepOK ok a b (i - 1) (j - 1) = true)) :
    ∀ fuel, extendBackJ ok a b fuel i j k = (i, j, k)
  | 0 => rfl
  | fuel + 1 => by
    unfold extendBackJ
    rw [if_neg h]

/-- A forward extension whose guard fails is the identity. -/
theorem extendFwdJ_noop (ok : Char → Bool) (a b : Str) (i j k : Nat)
    (h : ¬ extStepOK ok a b (i + k) (j + k) = true) :
    ∀ fuel, extendFwdJ ok a b fuel i j k = (i, j, k)
  | 0 => rfl
  | fuel + 1 => by
    unfold extendFwdJ
    rw [if_neg h]

theorem phaseBack_noop (ok : Char → Bool) (a b : Str) (m : Nat × Nat × Nat)
    (h : ¬ (0 < m.1 ∧ 0 < m.2.1 ∧ extStepOK ok a b (m.1 - 1) (m.2.1 - 1) = true)) :
    phaseBack ok a b m = m := by
  unfold phaseBack
  rw [extendBackJ_noop ok a b _ _ _ h]

theorem phaseFwd_noop (ok : Char → Bool) (a b : Str) (m : Nat × Nat × Nat)
    (h : ¬ extStepOK ok a b (m.1 + m.2.2) (m.2.1 + m.2.2) = true) :
    phaseFwd ok a b m = m := by
  unfold phaseFwd
  rw [extendFwdJ_noop ok a b _ _ _ h]

/-- Below 200 characters autojunk never marks anything. -/
theorem bjunk_of_short (b : Str) (h : b.length < 200) (c : Char) :
    bjunk b c = false := by
  unfold bjunk
  rw [decide_eq_false (by omega)]
  rfl

/-- Equal heads extend a common prefix by one. -/
theorem commonPrefixLen_cons_same (c : Char) (x y : Str) :
    commonPrefixLen (c :: x) (c :: y) = commonPrefixLen x y + 1 := by
  simp [commonPrefixLen]

/-- A strict-scan winner of size 0 is the untouched initial triple. -/
theorem findLongestMatch_eq_zero (a b : Str)
    (h : (findLongestMatch a b).2.2 = 0) : findLongestMatch a b = (0, 0, 0) := by
  refine foldl_preserve_mem
    (fun acc : Nat × Nat × Nat => acc.2.2 = 0 → acc = (0, 0, 0)) _ _ _ ?_ (fun _ => rfl) h
  intro acc i _ hacc
  refine foldl_preserve_mem
    (fun acc : Nat × Nat × Nat => acc.2.2 = 0 → acc = (0, 0, 0)) _ _ _ ?_ hacc
  intro acc2 j _ hacc2
  unfold flmStep
  split
  · next hlt =>
    intro hz
    dsimp only at hz
    omega
  · exact hacc2

/-- A non-trivial scan winner records exactly the common run at its own
start offsets. -/
theorem findLongestMatch_k_exact (a b : Str)
    (h : (findLongestMatch a b).2.2 ≠ 0) :
    (findLongestMatch a b).2.2 =
      commonPrefixLen (a.drop (findLongestMatch a b).1)
        (b.drop (findLongestMatch a b).2.1) := by
  refine foldl_preserve_mem
    (fun acc : Nat × Nat × Nat => acc.2.2 ≠ 0 →
      acc.2.2 = commonPrefixLen (a.drop acc.1) (b.drop acc.2.1)) _ _ _ ?_
    (fun h0 => absurd rfl h0) h
  intro acc i _ hacc
  refine foldl_preserve_mem
    (fun acc : Nat × Nat × Nat => acc.2.2 ≠ 0 →
      acc.2.2 = commonPrefixLen (a.drop acc.1) (b.drop acc.2.1)) _ _ _ ?_ hacc
  intro acc2 j _ hacc2
  unfold flmStep
  split
  · intro _
    rfl
  · exact hacc2

/-- Agreement just past a common prefix extends it. -/
theorem commonPrefixLen_succ_of_agree :
    ∀ (k : Nat) (xs ys : Str) (c : Char), k ≤ commonPrefixLen xs ys →
      xs[k]? = some c → ys[k]? = some c → k + 1 ≤ commonPrefixLen xs ys
  | 0, xs, ys, c, _, hx, hy => by
    cases xs with
    | nil => simp at hx
    | cons x xt =>
      cases ys with
      | nil => simp at hy
      | cons y yt =>
        rw [List.getElem?_cons_zero] at hx hy
        have hxc : x = c := by injection hx
        have hyc : y = c := by injection hy
        rw [hxc, hyc, commonPrefixLen_cons_same]
        omega
  | k + 1, xs, ys, c, hk, hx, hy => by
    cases xs with
    | nil => simp at hx
    | cons x xt =>
      cases ys with
      | nil => simp at hy
      | cons y yt =>
        rw [List.getElem?_cons_succ] at hx hy
        have hxy : x = y := by
          by_contra hne
          rw [show commonPrefixLen (x :: xt) (y :: yt) = 0 by
            simp [commonPrefixLen, hne]] at hk
          omega
        subst hxy
        rw [commonPrefixLen_cons_same] at hk ⊢
        have := commonPrefixLen_succ_of_agree k xt yt c (by omega) hx hy
        omega

/-- The plain scan's winner admits no backward extension: an equal pair
just before its start would produce a longer run, contradicting
maximality. -/
theorem flm_back_no_fire (ok : Char → Bool) (a b : Str) :
    ¬ (0 < (findLongestMatch a b).1 ∧ 0 < (findLongestMatch a b).2.1 ∧
      extStepOK ok a b ((findLongestMatch a b).1 - 1)
        ((findLongestMatch a b).2.1 - 1) = true) := by
  rintro ⟨hi, hj, hstep⟩
  obtain ⟨ca, cb, hca, hcb, _, rfl⟩ := (extStepOK_true_iff ok a b _ _).mp hstep
  by_cases hk : (findLongestMatch a b).2.2 = 0
  · rw [findLongestMatch_eq_zero a b hk] at hi
    simp at hi
  · have hkx := findLongestMatch_k_exact a b hk
    obtain ⟨hlta, hgeta⟩ := List.getElem?_eq_some.mp hca
    obtain ⟨hltb, hgetb⟩ := List.getElem?_eq_some.mp hcb
    have hda : a.drop ((findLongestMatch a b).1 - 1) =
        ca :: a.drop (findLongestMatch a b).1 := by
      rw [List.drop_eq_getElem_cons hlta, hgeta,
        Nat.sub_add_cancel (Nat.one_le_iff_ne_zero.mpr (by omega))]
    have hdb : b.drop ((findLongestMatch a b).2.1 - 1) =
        ca :: b.drop (findLongestMatch a b).2.1 := by
      rw [List.drop_eq_getElem_cons hltb, hgetb,
        Nat.sub_add_cancel (Nat.one_le_iff_ne_zero.mpr (by omega))]
    have hcontra := findLongestMatch_size_ge a b
      ((findLongestMatch a b).1 - 1) ((findLongestMatch a b).2.1 - 1)
    rw [hda, hdb, commonPrefixLen_cons_same, ← hkx] at hcontra
    omega

/-- The plain scan's winner admits no forward extension: an equal pair just
past its end would extend the run at its own start, contradicting
maximality. -/
theorem flm_fwd_no_fire (ok : Char → Bool) (a b : Str) :
    ¬ extStepOK ok a b ((findLongestMatch a b).1 + (findLongestMatch a b).2.2)
      ((findLongestMatch a b).2.1 + (findLongestMatch a b).2.2) = true := by
  intro hstep
  obtain ⟨ca, cb, hca, hcb, _, rfl⟩ := (extStepOK_true_iff ok a b _ _).mp hstep
  have hge : (findLongestMatch a b).2.2 ≤
      commonPrefixLen (a.drop (findLongestMatch a b).1)
        (b.drop (findLongestMatch a b).2.1) := by
    by_cases hk : (findLongestMatch a b).2.2 = 0
    · omega
    · exact le_of_eq (findLongestMatch_k_exact a b hk)
  have h1 : (a.drop (findLongestMatch a b).1)[(findLongestMatch a b).2.2]? = some ca := by
    rw [List.getElem?_drop]
    exact hca
  have h2 : (b.drop (findLongestMatch a b).2.1)[(findLongestMatch a b).2.2]? = some ca := by
    rw [List.getElem?_drop]
    exact hcb
  have hsucc := commonPrefixLen_succ_of_agree _ _ _ ca hge h1 h2
  have hub := findLongestMatch_size_ge a b
    (findLongestMatch a b).1 (findLongestMatch a b).2.1
  omega

/-- Below the autojunk regime the junk-aware matcher coincides with the
plain scan: the dynamic programme agrees, and none of the four extension
loops can fire on a maximal block. -/
theorem findLongestMatchJ_no_junk (junk : Char → Bool) (a b : Str)
    (h : ∀ c, junk c = false) :
    findLongestMatchJ junk a b = findLongestMatch a b := by
  unfold findLongestMatchJ
  rw [dpLongestMatch_no_junk junk a b h]
  rw [phaseBack_noop _ _ _ _ (flm_back_no_fire _ a b)]
  rw [phaseFwd_noop _ _ _ _ (flm_fwd_no_fire _ a b)]
  rw [phaseBack_noop _ _ _ _ (flm_back_no_fire _ a b)]
  exact phaseFwd_noop _ _ _ _ (flm_fwd_no_fire _ a b)

/-- A needle whose head is absent from the haystack is no substring. -/
theorem isSub_head_not_mem (c : Char) (cs : Str) :
    ∀ hay : Str, c ∉ hay → isSub (c :: cs) hay = false
  | [], _ => rfl
  | h :: t, hmem => by
    have hne : c ≠ h := fun he => hmem (he ▸ List.mem_cons_self _ _)
    have hpre : (c :: cs).isPrefixOf (h :: t) = false := by
      simp [List.isPrefixOf, hne]
    simp [isSub, hpre,
      isSub_head_not_mem c cs t (fun hm => hmem (List.mem_cons_of_mem _ hm))]

/-- Common prefix length of two runs of the same character. -/
theorem commonPrefixLen_replicate (c : Char) :
    ∀ (m n : Nat), commonPrefixLen (List.replicate m c) (List.replicate n c) = min m n
  | 0, n => by simp [commonPrefixLen_nil_left]
  | m + 1, 0 => by simp [commonPrefixLen_nil_right]
  | m + 1, n + 1 => by
    rw [List.replicate_succ, List.replicate_succ, commonPrefixLen_cons_same,
      commonPrefixLen_replicate c m n]
    omega

/-- A non-empty needle is never a substring of the empty string. -/
theorem isSub_nil (n : Str) (h : n ≠ []) : isSub n [] = false := by
  cases n with
  | nil => exact absurd rfl h
  | cons c cs => rfl

theorem pyLower_length (s : Str) : (pyLower s).length = s.length :=
  List.length_map _ _

theorem pyLower_ne_nil (s : Str) (h : s ≠ []) : pyLower s ≠ [] := by
  cases s with
  | nil => exact absurd rfl h
  | cons c cs => simp [pyLower]

/-- A line whose length-capped ratio falls below the threshold is not
covered (used to settle the §8 worked example without unfolding the whole
quadratic scan inside the kernel). -/
theorem line_is_covered_false_of_short (line coverage_text : Str) (threshold : ℚ)
    (hsub : isSub (pyLower line) coverage_text = false)
    (hcov : coverage_text ≠ [])
    (hlt : 2 * (line.length : ℚ) / ((line.length : ℚ) + (coverage_text.length : ℚ)) < threshold) :
    line_is_covered line coverage_text threshold = false := by
  unfold line_is_covered
  rw [hsub]
  simp only [Bool.false_eq_true, if_false, decide_eq_false_iff_not, not_le]
  rw [if_neg (by simpa [List.isEmpty_iff] using hcov)]
  refine lt_of_le_of_lt ?_ hlt
  have hk : (((findLongestMatchJ (bjunk coverage_text) (pyLower line) coverage_text).2.2 : ℚ)) ≤
      (line.length : ℚ) := by
    have h := findLongestMatchJ_size_le_left (bjunk coverage_text) (pyLower line) coverage_text
    rw [pyLower_length] at h
    exact_mod_cast h
  have hden : (0 : ℚ) < (line.length : ℚ) + (coverage_text.length : ℚ) := by
    have h1 : 0 < coverage_text.length := List.length_pos.mpr hcov
    have h2 : (0:ℚ) < (coverage_text.length : ℚ) := by exact_mod_cast h1
    positivity
  rw [Rat.mkRat_eq_div]
  push_cast
  rw [div_le_div_iff₀ hden hden]
  have hnum : ((findLongestMatchJ (bjunk coverage_text) (pyLower line) coverage_text).2.2 : ℚ) * 2 ≤
      2 * (line.length : ℚ) := by linarith
  exact mul_le_mul_of_nonneg_right hnum (le_of_lt hden)

/-- The first component of the dedup best-score fold is the running
maximum of the similarity scores. -/
theorem bestOf_fold_fst (s : Str) :
    ∀ (l : List (Nat × Str)) (acc : ℚ × Nat),
      (l.foldl (fun best p =>
        if best.1 < similarity s p.2 then (similarity s p.2, p.1) else best) acc).1 =
      (l.map (fun p => similarity s p.2)).foldl max acc.1
  | [], _ => rfl
  | p :: ps, acc => by
    have hstep :
        ((if acc.1 < similarity s p.2 then (similarity s p.2, p.1) else acc) : ℚ × Nat).1 =
          max acc.1 (similarity s p.2) := by
      by_cases h : acc.1 < similarity s p.2
      · rw [if_pos h, max_eq_right (le_of_lt h)]
      · rw [if_neg h, max_eq_left (not_lt.1 h)]
    rw [List.foldl_cons, List.map_cons, List.foldl_cons, bestOf_fold_fst s ps _, hstep]

/-- The dedup fold returns the score and identifier of the first artifact
attaining the maximal similarity, provided that maximum is positive. -/
theorem bestOf_fold_first_attain (s : Str) (pre : List (Nat × Str)) (q : Nat × Str)
    (post : List (Nat × Str)) (M : ℚ)
    (hpre : ∀ p ∈ pre, similarity s p.2 < M)
    (hq : similarity s q.2 = M)
    (hpost : ∀ p ∈ post, similarity s p.2 ≤ M)
    (hM : 0 < M) :
    ((pre ++ q :: post).foldl (fun best p =>
      if best.1 < similarity s p.2 then (similarity s p.2, p.1) else best)
      ((0 : ℚ), (0 : Nat))) = (M, q.1) := by
  rw [List.foldl_append, List.foldl_cons]
  have hA : ((pre.foldl (fun best p =>
      if best.1 < similarity s p.2 then (similarity s p.2, p.1) else best)
      ((0 : ℚ), (0 : Nat)))).1 < M := by
    rw [bestOf_fold_fst]
    refine foldl_max_lt _ _ _ hM ?_
    intro x hx
    obtain ⟨p, hp, rfl⟩ := List.mem_map.mp hx
    exact hpre p hp
  rw [if_pos (hq ▸ hA)]
  rw [hq]
  exact foldl_stationary _ _ _
    (fun p hp => if_neg (not_lt.mpr (hpost p hp)))

/-- The score of `check` is, in both branches, the first component of the
running-maximum fold. -/
theorem check_score_bestOf (e : DedupEngine) (tc : GeneratedTestCase) :
    (e.check tc).score = (e.bestOf (tc_signature tc.title tc.given tc.when tc.then_)).1 := by
  unfold DedupEngine.check
  split <;> rfl

/-- The score of `check` is the maximum similarity against the snapshot
(0 when the snapshot is empty). -/
theorem check_score_eq (e : DedupEngine) (tc : GeneratedTestCase) :
    (e.check tc).score =
      (e.existing_sigs.map (fun p =>
        similarity (tc_signature tc.title tc.given tc.when tc.then_) p.2)).foldl max 0 := by
  rw [check_score_bestOf]
  unfold DedupEngine.bestOf
  exact bestOf_fold_fst _ _ _

/-- The duplicate flag is exactly the `best_score >= threshold` test. -/
theorem check_dup_iff (e : DedupEngine) (tc : GeneratedTestCase) :
    (e.check tc).is_duplicate = decide (e.threshold ≤ (e.check tc).score) := by
  unfold DedupEngine.check
  split
  · next h => simp [h]
  · next h => simp [h]

/-- Below the threshold the reported identifier is the sentinel 0. -/
theorem check_not_dup_matched_id (e : DedupEngine) (tc : GeneratedTestCase) :
    (e.check tc).is_duplicate = false → (e.check tc).matched_id = 0 := by
  unfold DedupEngine.check
  split
  · intro h
    simp at h
  · intro _
    rfl

/-- On a duplicate, the reported identifier is the first artifact (in
snapshot order) attaining the maximal similarity: strict `>` updates mean
the first seen wins ties. -/
theorem check_first_attain (e : DedupEngine) (tc : GeneratedTestCase)
    (pre : List (Nat × Str)) (q : Nat × Str) (post : List (Nat × Str))
    (hsplit : e.existing_sigs = pre ++ q :: post)
    (hpre : ∀ p ∈ pre,
      similarity (tc_signature tc.title tc.given tc.when tc.then_) p.2 < (e.check tc).score)
    (hq : similarity (tc_signature tc.title tc.given tc.when tc.then_) q.2 = (e.check tc).score)
    (hM : 0 < (e.check tc).score)
    (hdup : (e.check tc).is_duplicate = true) :
    (e.check tc).matched_id = q.1 := by
  have hbest : e.bestOf (tc_signature tc.title tc.given tc.when tc.then_) =
      ((e.check tc).score, q.1) := by
    unfold DedupEngine.bestOf
    rw [hsplit]
    refine bestOf_fold_first_attain _ _ _ _ _ hpre hq ?_ hM
    intro p hp
    rw [check_score_eq]
    refine mem_le_foldl_max _ _ _ ?_
    rw [hsplit]
    exact List.mem_map_of_mem _ (by simp [hp])
  have hthr : e.threshold ≤ (e.check tc).score := by
    have h := check_dup_iff e tc
    rw [hdup] at h
    exact of_decide_eq_true h.symm
  have hthr' : e.threshold ≤
      (e.bestOf (tc_signature tc.title tc.given tc.when tc.then_)).1 := by
    rw [← check_score_bestOf]
    exact hthr
  unfold DedupEngine.check
  rw [if_pos hthr']
  show (e.bestOf (tc_signature tc.title tc.given tc.when tc.then_)).2 = q.1
  rw [hbest]

/-! ## Concrete fixtures used by the worked examples and witnesses -/

/-- The §8 worked-example story. -/
def exampleStory : UserStory :=
  { id := 42, title := "Login story".data, description := [],
    acceptance_criteria := "- User can log in\n- User can reset password".data }

/-- The §8 worked-example linked artifact. -/
def exampleExisting : List ExistingTestCase :=
  [{ id := 101, title := "Verify user login".data,
     steps := [{ action := "user logs in".data,
                 expected_result := "dashboard shown".data }] }]

/-- A story with an empty acceptance-criteria block. -/
def storyNoAC : UserStory :=
  { id := 7, title := "t".data, description := [], acceptance_criteria := [] }

/-- A minimal generated case. -/
def tcTiny : GeneratedTestCase :=
  { title := "t".data, given := "g".data, when := "w".data, then_ := "h".data }

/-- A generated case carrying an unrecognised category label. -/
def tcBogus : GeneratedTestCase :=
  { title := "t".data, given := "g".data, when := "w".data, then_ := "h".data,
    category := "Bogus".data }

/-- A minimal linked artifact. -/
def artifactTiny : ExistingTestCase := { id := 5, title := "b".data }

/-- A folder map that only knows the catch-all folder. -/
def folderMapW : List (Str × Nat) := [("Complete Test Cases".data, 10)]

/-- Autojunk fixture: a 200-character criteria line whose first character
does not occur in the corpus. -/
def lineCX : Str := 'x' :: List.replicate 199 'a'

/-- Autojunk fixture: an artifact whose 250-character title pushes the
coverage corpus into the autojunk regime (every character popular). -/
def artifactCX : ExistingTestCase := { id := 9, title := List.replicate 250 'a' }

/-- A collaborator oracle with one linked artifact and no criteria. -/
def adoTiny : ADOClient :=
  { get_user_story := fun _ => storyNoAC
    get_linked_test_cases := fun _ => [artifactTiny]
    ensure_folders := []
    create_test_case := fun n _ => n + 1000 }

/-- A generator collaborator producing nothing. -/
def genTiny : UserStory → Str → List GeneratedTestCase := fun _ _ => []

/-! ## Claim theorems -/

/-- C4, counterexample. The claim states `similarity("", anything) = 0.0`
including the empty string itself; but `SequenceMatcher("","").ratio()` is
1.0 (difflib's `_calculate_ratio` returns 1.0 on combined length 0), so the
similarity of the empty string with the empty string is not 0. -/
theorem similarity_empty_empty_ne_zero : similarity ([] : Str) [] ≠ 0 := by
  rw [similarity_nil_nil]
  norm_num

/-- C4, amended. `similarity a a = 1.0` for every non-empty `a`, and
`similarity "" b = 0.0` for every non-empty `b`; however
`similarity "" "" = 1.0`, not 0.0. -/
theorem similarity_spec :
    (∀ a : Str, a ≠ [] → similarity a a = 1) ∧
    (∀ b : Str, b ≠ [] → similarity [] b = 0) ∧
    similarity [] [] = 1 :=
  ⟨similarity_self, similarity_nil_left, similarity_nil_nil⟩

/-- C4, witness for the amended claim at concrete inputs. -/
theorem similarity_spec_witness :
    ("a".data ≠ [] ∧ similarity ("a".data) ("a".data) = 1) ∧
    ("b".data ≠ [] ∧ similarity [] "b".data = 0) :=
  ⟨⟨by decide, similarity_spec.1 ("a".data) (by decide)⟩,
   ⟨by decide, similarity_spec.2.1 ("b".data) (by decide)⟩⟩

/-- C7. `compute_delta` returns the empty string when the acceptance
criteria contain no non-empty line after cleaning, and (for any criteria
text) when the list of existing artifacts is empty. -/
theorem compute_delta_trivial_cases :
    (∀ (story : UserStory) (existing : List ExistingTestCase),
      extract_criteria_lines story.acceptance_criteria = [] →
      compute_delta story existing = []) ∧
    (∀ story : UserStory, compute_delta story [] = []) := by
  constructor
  · intro story existing h
    unfold compute_delta
    rw [if_pos h]
  · intro story
    unfold compute_delta
    split
    · rfl
    · rw [if_pos rfl]

/-- C7, witness at concrete inputs. -/
theorem compute_delta_trivial_cases_witness :
    (extract_criteria_lines storyNoAC.acceptance_criteria = [] ∧
      compute_delta storyNoAC [artifactTiny] = []) ∧
    compute_delta exampleStory [] = [] :=
  ⟨⟨by decide, compute_delta_trivial_cases.1 storyNoAC [artifactTiny] (by decide)⟩,
   compute_delta_trivial_cases.2 exampleStory⟩

/-- C8. `assign_test` files every case into the catch-all
"Complete Test Cases" folder and into exactly one of Smoke/Sanity/
Regression — the category normalised to "Regression" when unrecognised —
and silently skips any filing whose folder name is missing from the map. -/
theorem router_assign_spec (folder_map : List (Str × Nat)) (test_case_id : Nat)
    (tc : GeneratedTestCase) :
    assign_test folder_map test_case_id tc =
      file_into folder_map ("Complete Test Cases".data) test_case_id ++
        file_into folder_map (normalize_category tc.category) test_case_id ∧
    normalize_category tc.category ∈ recognized_categories ∧
    (tc.category ∉ recognized_categories →
      normalize_category tc.category = "Regression".data) ∧
    (∀ name : Str, lookupName folder_map name = none →
      file_into folder_map name test_case_id = []) := by
  refine ⟨rfl, ?_, ?_, ?_⟩
  · unfold normalize_category
    split
    · assumption
    · decide
  · intro h
    unfold normalize_category
    rw [if_neg h]
  · intro name h
    unfold file_into
    rw [h]

/-- C8, witness: a "Bogus" category files as "Regression", and with
"Regression" absent from the map that filing is skipped. -/
theorem router_assign_spec_witness :
    (tcBogus.category ∉ recognized_categories ∧
      normalize_category tcBogus.category = "Regression".data) ∧
    (lookupName folderMapW ("Regression".data) = none ∧
      file_into folderMapW ("Regression".data) 3 = []) :=
  ⟨⟨by decide, (router_assign_spec folderMapW 3 tcBogus).2.2.1 (by decide)⟩,
   ⟨by decide, (router_assign_spec folderMapW 3 tcBogus).2.2.2 ("Regression".data) (by decide)⟩⟩

/-- C10. A falsy constructor threshold (`None` or `0.0`) falls back to
the settings default `DEDUP_THRESHOLD = 0.90`, so a matcher with effective
threshold exactly 0.0 cannot be obtained. -/
theorem dedup_threshold_fallback :
    (∀ existing : List ExistingTestCase,
      DedupEngine.init existing (some 0) = DedupEngine.init existing none) ∧
    (∀ existing : List ExistingTestCase,
      (DedupEngine.init existing none).threshold = Settings.DEDUP_THRESHOLD) ∧
    Settings.DEDUP_THRESHOLD = (9 : ℚ) / 10 ∧
    (∀ (existing : List ExistingTestCase) (topt : Option ℚ),
      (DedupEngine.init existing topt).threshold ≠ 0) := by
  have hdt : Settings.DEDUP_THRESHOLD = (9 : ℚ) / 10 := by
    unfold Settings.DEDUP_THRESHOLD
    rw [Rat.mkRat_eq_div]
    norm_num
  refine ⟨fun existing => ?_, fun existing => rfl, hdt, fun existing topt => ?_⟩
  · unfold DedupEngine.init
    norm_num
  · cases topt with
    | none =>
      show Settings.DEDUP_THRESHOLD ≠ 0
      rw [hdt]
      norm_num
    | some t =>
      show (if t = 0 then Settings.DEDUP_THRESHOLD else t) ≠ 0
      by_cases h : t = 0
      · rw [if_pos h, hdt]
        norm_num
      · rw [if_neg h]
        exact h

/-- C9. The comparison/delta operations are total and neutral on the
degenerate inputs the spec names: similarity of the empty string with a
non-empty string is 0; an artifact with an empty step sequence still gets
a well-formed signature; covering against an empty corpus fails without
error; a story whose criteria block is empty yields an empty delta; and a
duplicate check against an empty snapshot scores 0. -/
theorem analysis_total_neutral :
    (∀ b : Str, b ≠ [] → similarity [] b = 0) ∧
    (∀ (i : Nat) (t : Str) (p : Nat) (tg : List Str) (r : Nat),
      existing_signature
          { id := i, title := t, steps := [], priority := p, tags := tg, revision := r } =
        pyLower (pyStrip (t ++ ['\n']))) ∧
    (∀ line : Str, line ≠ [] → line_is_covered line [] (mkRat 7 10) = false) ∧
    (∀ (story : UserStory) (existing : List ExistingTestCase),
      story.acceptance_criteria = [] → compute_delta story existing = []) ∧
    (∀ (topt : Option ℚ) (tc : GeneratedTestCase),
      ((DedupEngine.init [] topt).check tc).score = 0) := by
  refine ⟨similarity_nil_left, fun i t p tg r => rfl, ?_, ?_, ?_⟩
  · intro line hline
    unfold line_is_covered
    rw [isSub_nil _ (pyLower_ne_nil line hline)]
    rw [if_neg (by simp)]
    exact (by decide : decide ((mkRat 7 10 : ℚ) ≤ 0) = false)
  · intro story existing h
    unfold compute_delta
    rw [h]
    rw [if_pos (show extract_criteria_lines [] = [] from rfl)]
  · intro topt tc
    rw [check_score_bestOf]
    rfl

/-- C9, witness at concrete degenerate inputs. -/
theorem analysis_total_neutral_witness :
    ("x".data ≠ [] ∧ similarity [] "x".data = 0) ∧
    ("a".data ≠ [] ∧ line_is_covered ("a".data) [] (mkRat 7 10) = false) ∧
    (storyNoAC.acceptance_criteria = [] ∧ compute_delta storyNoAC [artifactTiny] = []) :=
  ⟨⟨by decide, analysis_total_neutral.1 ("x".data) (by decide)⟩,
   ⟨by decide, analysis_total_neutral.2.2.1 ("a".data) (by decide)⟩,
   ⟨rfl, analysis_total_neutral.2.2.2.1 storyNoAC [artifactTiny] rfl⟩⟩

/-- C1. For every snapshot, configured threshold and candidate case,
`DedupEngine.check` computes the candidate-signature similarity against
each existing signature and tracks the maximum with a strict `>` update
(first seen wins ties): the reported score is the maximum of the
similarities (0 on an empty snapshot); `duplicate` holds exactly when the
maximum reaches the threshold; below the threshold the identifier is the
sentinel 0; on a duplicate the identifier belongs to the first artifact
attaining the maximum; and against an empty snapshot the result is always
`duplicate = false, matched_id = 0, score = 0.0`. -/
theorem dedup_check_correct (existing : List ExistingTestCase) (topt : Option ℚ)
    (tc : GeneratedTestCase)
    (ht : 0 < (DedupEngine.init existing topt).threshold) :
    ((DedupEngine.init existing topt).check tc).score =
      (((DedupEngine.init existing topt).existing_sigs.map (fun p =>
        similarity (tc_signature tc.title tc.given tc.when tc.then_) p.2)).foldl max 0) ∧
    ((DedupEngine.init existing topt).check tc).is_duplicate =
      decide ((DedupEngine.init existing topt).threshold ≤
        ((DedupEngine.init existing topt).check tc).score) ∧
    (((DedupEngine.init existing topt).check tc).is_duplicate = false →
      ((DedupEngine.init existing topt).check tc).matched_id = 0) ∧
    (∀ (pre : List (Nat × Str)) (q : Nat × Str) (post : List (Nat × Str)),
      (DedupEngine.init existing topt).existing_sigs = pre ++ q :: post →
      (∀ p ∈ pre, similarity (tc_signature tc.title tc.given tc.when tc.then_) p.2 <
        ((DedupEngine.init existing topt).check tc).score) →
      similarity (tc_signature tc.title tc.given tc.when tc.then_) q.2 =
        ((DedupEngine.init existing topt).check tc).score →
      ((DedupEngine.init existing topt).check tc).is_duplicate = true →
      ((DedupEngine.init existing topt).check tc).matched_id = q.1) ∧
    (existing = [] →
      (DedupEngine.init existing topt).check tc =
        { is_duplicate := false, matched_id := 0, score := 0 }) := by
  refine ⟨check_score_eq _ tc, check_dup_iff _ tc, check_not_dup_matched_id _ tc,
    ?_, ?_⟩
  · intro pre q post hsplit hpre hq hdup
    refine check_first_attain _ tc pre q post hsplit hpre hq ?_ hdup
    have hthr : (DedupEngine.init existing topt).threshold ≤
        ((DedupEngine.init existing topt).check tc).score := by
      have h := check_dup_iff (DedupEngine.init existing topt) tc
      rw [hdup] at h
      exact of_decide_eq_true h.symm
    exact lt_of_lt_of_le ht hthr
  · intro hnil
    subst hnil
    unfold DedupEngine.check
    rw [if_neg (show ¬ ((DedupEngine.init [] topt).threshold ≤
      ((DedupEngine.init [] topt).bestOf
        (tc_signature tc.title tc.given tc.when tc.then_)).1) from not_le.mpr ht)]
    rfl

/-- C1, witness: with the default threshold and an empty snapshot the
check reports no duplicate, identifier 0, score 0. -/
theorem dedup_check_correct_witness :
    0 < (DedupEngine.init [] none).threshold ∧
    (DedupEngine.init [] none).check tcTiny =
      { is_duplicate := false, matched_id := 0, score := 0 } :=
  ⟨by decide, (dedup_check_correct [] none tcTiny (by decide)).2.2.2.2 rfl⟩

/-- C2, amended. For a coverage corpus shorter than 200 characters —
below difflib's autojunk activation length — a non-empty criteria line is
judged covered iff its lowercase form is a literal substring of the corpus
or the ratio `2*L / (len(line) + len(corpus))` reaches 0.70, where `L` is
the longest shared contiguous block (attained by a shared block and
bounding every shared block); for longer corpora the autojunk heuristic
can report a smaller block (see the counterexample).  Independently of
corpus length, the delta is exactly the uncovered lines as a
"- "-bulleted, newline-joined list. -/
theorem coverage_covered_iff :
    (∀ (line : Str) (existing : List ExistingTestCase), line ≠ [] →
      (existing_coverage_text existing).length < 200 →
      ((line_is_covered line (existing_coverage_text existing) (mkRat 7 10) = true ↔
        (isSub (pyLower line) (existing_coverage_text existing) = true ∨
          (7 : ℚ) / 10 ≤
            2 * (((findLongestMatch (pyLower line) (existing_coverage_text existing)).2.2 : ℚ)) /
              ((line.length : ℚ) + ((existing_coverage_text existing).length : ℚ)))) ∧
      (∃ i j, (findLongestMatch (pyLower line) (existing_coverage_text existing)).2.2 =
        commonPrefixLen ((pyLower line).drop i) ((existing_coverage_text existing).drop j)) ∧
      (∀ i j, commonPrefixLen ((pyLower line).drop i) ((existing_coverage_text existing).drop j) ≤
        (findLongestMatch (pyLower line) (existing_coverage_text existing)).2.2))) ∧
    (∀ (story : UserStory) (existing : List ExistingTestCase),
      extract_criteria_lines story.acceptance_criteria ≠ [] → existing ≠ [] →
      compute_delta story existing =
        joinNL (((extract_criteria_lines story.acceptance_criteria).filter
          (fun l => !line_is_covered l (existing_coverage_text existing) (mkRat 7 10))).map
            (fun l => '-' :: ' ' :: l))) := by
  constructor
  · intro line existing hline hshort
    have hjeq : findLongestMatchJ (bjunk (existing_coverage_text existing)) (pyLower line)
        (existing_coverage_text existing) =
        findLongestMatch (pyLower line) (existing_coverage_text existing) :=
      findLongestMatchJ_no_junk _ _ _ (bjunk_of_short _ hshort)
    refine ⟨?_, findLongestMatch_size_attained _ _,
      fun i j => findLongestMatch_size_ge _ _ i j⟩
    unfold line_is_covered
    rw [hjeq]
    by_cases hsub : isSub (pyLower line) (existing_coverage_text existing) = true
    · rw [if_pos hsub]
      simp [hsub]
    · rw [if_neg hsub]
      by_cases hcov : existing_coverage_text existing = []
      · rw [hcov]
        rw [hcov] at hsub
        rw [findLongestMatch_nil_right]
        constructor
        · intro h
          exfalso
          have h0 := of_decide_eq_true h
          have : ¬ ((mkRat 7 10 : ℚ) ≤ 0) := by decide
          exact this h0
        · intro h
          rcases h with h | h
          · exact absurd h hsub
          · exfalso
            revert h
            norm_num
      · rw [if_neg (by simpa [List.isEmpty_iff] using hcov)]
        rw [decide_eq_true_eq]
        have e1 : (mkRat 7 10 : ℚ) = 7 / 10 := by
          rw [Rat.mkRat_eq_div]
          norm_num
        have e2 : (mkRat
            ((findLongestMatch (pyLower line) (existing_coverage_text existing)).2.2 * 2)
            (line.length + (existing_coverage_text existing).length) : ℚ) =
            2 * (((findLongestMatch (pyLower line) (existing_coverage_text existing)).2.2 : ℚ)) /
              ((line.length : ℚ) + ((existing_coverage_text existing).length : ℚ)) := by
          rw [Rat.mkRat_eq_div]
          push_cast
          ring
        rw [e1, e2]
        simp [hsub]
  · intro story existing h1 h2
    unfold compute_delta
    rw [if_neg h1, if_neg h2]
    split
    · next hf =>
      rw [hf]
      rfl
    · rfl

/-- C2, witness: the covered-iff characterisation (on a short corpus) and
the bulleted delta at concrete inputs. -/
theorem coverage_covered_iff_witness :
    ("a".data ≠ [] ∧
      (existing_coverage_text [artifactTiny]).length < 200 ∧
      (line_is_covered ("a".data) (existing_coverage_text [artifactTiny]) (mkRat 7 10) = true ↔
        (isSub (pyLower ("a".data)) (existing_coverage_text [artifactTiny]) = true ∨
          (7 : ℚ) / 10 ≤
            2 * (((findLongestMatch (pyLower ("a".data))
                (existing_coverage_text [artifactTiny])).2.2 : ℚ)) /
              (("a".data.length : ℚ) + (((existing_coverage_text [artifactTiny]).length : ℚ)))))) ∧
    (extract_criteria_lines exampleStory.acceptance_criteria ≠ [] ∧
      ([artifactTiny] : List ExistingTestCase) ≠ [] ∧
      compute_delta exampleStory [artifactTiny] =
        joinNL (((extract_criteria_lines exampleStory.acceptance_criteria).filter
          (fun l => !line_is_covered l (existing_coverage_text [artifactTiny]) (mkRat 7 10))).map
            (fun l => '-' :: ' ' :: l))) :=
  ⟨⟨by decide, by decide,
    (coverage_covered_iff.1 ("a".data) [artifactTiny] (by decide) (by decide)).1⟩,
   ⟨by decide, by decide,
    coverage_covered_iff.2 exampleStory [artifactTiny] (by decide) (by decide)⟩⟩

set_option maxRecDepth 8000 in
/-- C2, counterexample. The claim's iff — covered exactly when the line is
a substring or `2*L/(len(line)+len(corpus)) >= 0.70` with `L` the longest
shared contiguous substring — fails once the corpus reaches difflib's
autojunk regime: on the 250-character all-'a' corpus every character is
popular, the junk-pruned matcher reports block size 0 and the code judges
the 200-character line NOT covered, although the line is no substring and
shares a contiguous block of length 199 with the corpus, so the claim's
ratio (at least `2*199/450 ≈ 0.88`, and at least that for any `L ≥ 199`,
hence for the true longest block) clears 0.70 and the claim asserts
covered. -/
theorem coverage_autojunk_counterexample :
    line_is_covered lineCX (existing_coverage_text [artifactCX]) (mkRat 7 10) = false ∧
    isSub (pyLower lineCX) (existing_coverage_text [artifactCX]) = false ∧
    commonPrefixLen ((pyLower lineCX).drop 1) (existing_coverage_text [artifactCX]) = 199 ∧
    (∀ L : Nat, 199 ≤ L →
      (7 : ℚ) / 10 ≤ 2 * (L : ℚ) /
        ((lineCX.length : ℚ) + ((existing_coverage_text [artifactCX]).length : ℚ))) := by
  have hcorp : existing_coverage_text [artifactCX] = List.replicate 250 'a' := by
    simp [existing_coverage_text, artifactCX, joinNL, pyLower, List.map_replicate,
      show Char.toLower 'a' = 'a' from rfl]
  have hlower : pyLower lineCX = 'x' :: List.replicate 199 'a' := by
    simp [lineCX, pyLower, List.map_replicate, show Char.toLower 'x' = 'x' from rfl,
      show Char.toLower 'a' = 'a' from rfl]
  have hjunkA : bjunk (List.replicate 250 'a') 'a' = true := by
    unfold bjunk
    rw [List.length_replicate, List.count_replicate_self]
    decide
  have hall : ∀ c ∈ (List.replicate 250 'a' : Str),
      bjunk (List.replicate 250 'a') c = true := by
    intro c hc
    rw [List.eq_of_mem_replicate hc]
    exact hjunkA
  have ha0 : (pyLower lineCX)[0]? = some 'x' := by
    rw [hlower]
    rfl
  have hb0 : ((List.replicate 250 'a' : Str))[0]? = some 'a' := rfl
  have hstep2 : extStepOK (fun c => !bjunk (List.replicate 250 'a') c)
      (pyLower lineCX) (List.replicate 250 'a') 0 0 = false := by
    rw [extStepOK_eq _ _ _ _ _ 'x' 'a' ha0 hb0, hjunkA]
    rfl
  have hstep4 : extStepOK (fun c => bjunk (List.replicate 250 'a') c)
      (pyLower lineCX) (List.replicate 250 'a') 0 0 = false := by
    rw [extStepOK_eq _ _ _ _ _ 'x' 'a' ha0 hb0, hjunkA]
    rfl
  have hpf2 : phaseFwd (fun c => !bjunk (List.replicate 250 'a') c) (pyLower lineCX)
      (List.replicate 250 'a') (0, 0, 0) = (0, 0, 0) :=
    phaseFwd_noop _ _ _ _ (fun h => Bool.noConfusion (hstep2.symm.trans h))
  have hpf4 : phaseFwd (fun c => bjunk (List.replicate 250 'a') c) (pyLower lineCX)
      (List.replicate 250 'a') (0, 0, 0) = (0, 0, 0) :=
    phaseFwd_noop _ _ _ _ (fun h => Bool.noConfusion (hstep4.symm.trans h))
  have hflmJ : findLongestMatchJ (bjunk (List.replicate 250 'a')) (pyLower lineCX)
      (List.replicate 250 'a') = (0, 0, 0) := by
    unfold findLongestMatchJ
    rw [dpLongestMatch_all_junk _ _ _ hall]
    rw [show phaseBack (fun c => !bjunk (List.replicate 250 'a') c)
      (pyLower lineCX) (List.replicate 250 'a') (0, 0, 0) = (0, 0, 0) from rfl]
    rw [hpf2]
    rw [show phaseBack (fun c => bjunk (List.replicate 250 'a') c)
      (pyLower lineCX) (List.replicate 250 'a') (0, 0, 0) = (0, 0, 0) from rfl]
    exact hpf4
  have hsub2 : isSub (pyLower lineCX) (List.replicate 250 'a') = false := by
    rw [hlower]
    exact isSub_head_not_mem 'x' _ _ (by simp [List.mem_replicate])
  refine ⟨?_, ?_, ?_, ?_⟩
  · unfold line_is_covered
    rw [hcorp, hsub2]
    rw [if_neg (by simp)]
    rw [decide_eq_false_iff_not]
    rw [if_neg (by simp)]
    rw [hflmJ]
    simp [Rat.mkRat_eq_div]
  · rw [hcorp]
    exact hsub2
  · rw [hlower, hcorp]
    show commonPrefixLen (List.replicate 199 'a') (List.replicate 250 'a') = 199
    rw [commonPrefixLen_replicate]
    omega
  · intro L hL
    have h1 : lineCX.length = 200 := by simp [lineCX]
    have h2 : (existing_coverage_text [artifactCX]).length = 250 := by
      rw [hcorp]
      simp
    rw [h1, h2]
    have hLq : (199 : ℚ) ≤ (L : ℚ) := by exact_mod_cast hL
    have h450 : ((200 : ℕ) : ℚ) + ((250 : ℕ) : ℚ) = 450 := by norm_num
    rw [h450, le_div_iff₀ (by norm_num : (0 : ℚ) < 450)]
    linarith

/-- C3, counterexample. The claim says the "User can log in" line is
covered by the "Verify user login" artifact; on the code it is not: the
lowercase line is not a substring of the corpus, and the longest shared
block cannot exceed the 15-character line, so the ratio is at most
`30/61 < 0.70`. -/
theorem login_line_not_covered :
    line_is_covered ("User can log in".data)
      (existing_coverage_text exampleExisting) (mkRat 7 10) = false := by
  apply line_is_covered_false_of_short
  · decide
  · decide
  · have h1 : ("User can log in".data : Str).length = 15 := by decide
    have h2 : (existing_coverage_text exampleExisting).length = 46 := by decide
    rw [h1, h2, Rat.mkRat_eq_div]
    norm_num

/-- C3, amended. On the §8 worked example the delta reports **both**
lines as uncovered: neither "User can log in" nor "User can reset
password" is a substring of the corpus, and both block ratios fall short
of 0.70, so the delta is the two-line bullet list. -/
theorem delta_reports_both_uncovered :
    compute_delta exampleStory exampleExisting =
      "- User can log in\n- User can reset password".data := by
  have h1 : line_is_covered ("User can log in".data)
      (existing_coverage_text exampleExisting) (mkRat 7 10) = false := by
    apply line_is_covered_false_of_short
    · decide
    · decide
    · have ha : ("User can log in".data : Str).length = 15 := by decide
      have hb : (existing_coverage_text exampleExisting).length = 46 := by decide
      rw [ha, hb, Rat.mkRat_eq_div]
      norm_num
  have h2 : line_is_covered ("User can reset password".data)
      (existing_coverage_text exampleExisting) (mkRat 7 10) = false := by
    apply line_is_covered_false_of_short
    · decide
    · decide
    · have ha : ("User can reset password".data : Str).length = 23 := by decide
      have hb : (existing_coverage_text exampleExisting).length = 46 := by decide
      rw [ha, hb, Rat.mkRat_eq_div]
      norm_num
  have hex : extract_criteria_lines exampleStory.acceptance_criteria =
      ["User can log in".data, "User can reset password".data] := by decide
  have hfilter : (["User can log in".data, "User can reset password".data] : List Str).filter
      (fun l => !line_is_covered l (existing_coverage_text exampleExisting) (mkRat 7 10)) =
      ["User can log in".data, "User can reset password".data] := by
    simp only [List.filter_cons, List.filter_nil, h1, h2, Bool.not_false, if_true]
  unfold compute_delta
  rw [hex, hfilter]
  rw [if_neg (by simp), if_neg (by decide), if_neg (by simp)]
  decide

/-- C5. Whenever at least one artifact is linked and the computed delta
is empty, the pipeline early-exits: the result's skipped count is the
number of existing artifacts, the created/updated lists are empty, and the
event trace stops after the two fetches — no generator call, no write
collaborator call. -/
theorem pipeline_early_exit (ado : ADOClient)
    (gen : UserStory → Str → List GeneratedTestCase) (story_id : Nat) (dry_run : Bool)
    (h1 : ado.get_linked_test_cases story_id ≠ [])
    (h2 : compute_delta (ado.get_user_story story_id)
      (ado.get_linked_test_cases story_id) = []) :
    run ado gen story_id dry_run =
      ({ story_id := story_id,
         skipped_count := (ado.get_linked_test_cases story_id).length },
       [Event.fetch_story story_id, Event.fetch_linked story_id]) := by
  unfold run
  rw [if_pos ⟨h1, h2⟩]

/-- C5, witness: one linked artifact, an empty-criteria story (hence an
empty delta), skipped count 1, nothing created or updated. -/
theorem pipeline_early_exit_witness :
    (adoTiny.get_linked_test_cases 7 ≠ [] ∧
      compute_delta (adoTiny.get_user_story 7) (adoTiny.get_linked_test_cases 7) = []) ∧
    run adoTiny genTiny 7 false =
      ({ story_id := 7, skipped_count := (adoTiny.get_linked_test_cases 7).length },
       [Event.fetch_story 7, Event.fetch_linked 7]) :=
  ⟨⟨by decide, by decide⟩,
   pipeline_early_exit adoTiny genTiny 7 false (by decide) (by decide)⟩

/-- C6. With dry-run enabled the pipeline never issues an
artifact-create, artifact-update or folder-assign collaborator call: its
event trace contains no write event, in either the early-exit branch or
the stop-after-generation branch. -/
theorem pipeline_dry_run_no_writes (ado : ADOClient)
    (gen : UserStory → Str → List GeneratedTestCase) (story_id : Nat) :
    ((run ado gen story_id true).2).filter is_write_event = [] := by
  unfold run
  split
  · rfl
  · rfl
